import Mathlib

/-!
# Verification of the Google Tasks todo platform
(`homeassistant/components/google_tasks/todo.py`)

Shallow embedding of the translation, ordering, categorization and update
logic of the module.  Dates are modelled as proleptic-Gregorian ordinals
(`Int`, Python's `date.toordinal()` convention: ordinal 1 = 0001-01-01,
a Monday, so `date.weekday() = (ordinal - 1) % 7`).  External library
functions (`dateutil.parser.isoparse`, `datetime.fromisoformat`,
`datetime.isoformat`) are parameters of the embedded functions.
-/

deriving instance DecidableEq for Except

namespace GoogleTasks

/-- Modelled from the spec: the local item status enum
(`homeassistant.components.todo.TodoItemStatus`, not under `src/`),
"status (enum: NeedsAction | Completed)". -/
inductive TodoItemStatus where
  | needs_action
  | completed
deriving DecidableEq, Repr

/-- Modelled from the spec: the local item
(`homeassistant.components.todo.TodoItem` dataclass, not under `src/`):
"{unique id (string, remote-assigned), title (string),
status (enum: NeedsAction | Completed), due (calendar date, optional,
day resolution only), description (string, optional)}"; the uid and the
status may be unset. -/
structure TodoItem where
  summary : String
  uid : Option String
  status : Option TodoItemStatus
  due : Option Int
  description : Option String
deriving DecidableEq, Repr

/-- A raw task record as returned by the remote API: a string dictionary.
`title`, `id` and `position` are accessed with `[...]` (required),
`status`, `due`, `notes` and `parent` with `.get` (optional). -/
structure ApiItem where
  id : String
  title : String
  status : Option String
  due : Option String
  notes : Option String
  parent : Option String
  position : String
deriving DecidableEq, Repr

/-- `TODO_STATUS_MAP` (todo.py line 30): `{"needsAction": NEEDS_ACTION,
"completed": COMPLETED}`, accessed with `.get`. -/
def TODO_STATUS_MAP (s : String) : Option TodoItemStatus :=
  if s = "needsAction" then some .needs_action
  else if s = "completed" then some .completed
  else none

/-- `TODO_STATUS_MAP_INV` (todo.py line 34): the inverted dictionary. -/
def TODO_STATUS_MAP_INV : TodoItemStatus → String
  | .needs_action => "needsAction"
  | .completed => "completed"

/-- A Python `datetime`: calendar date (ordinal), time of day and UTC
offset.  Only the `.date()` projection matters to the embedded code. -/
structure PyDateTime where
  date : Int
  secondsFromMidnight : Int
  utcOffsetMinutes : Int
deriving DecidableEq, Repr

/-- Modelled from the spec: `dt_util.start_of_local_day`
(`homeassistant.util.dt`, not under `src/`): "the ISO-8601 timestamp of
local midnight on that date", i.e. the datetime at the start of the local
calendar day (time 00:00:00, the local UTC offset `localOff`). -/
def start_of_local_day (localOff : Int) (d : Int) : PyDateTime :=
  ⟨d, 0, localOff⟩

/-- The value stored in the `status` slot of the outgoing dictionary:
the Python code stores either a plain string (the `if` branch, via
`TODO_STATUS_MAP_INV`) or the raw `TodoItemStatus` enum member
(the `else` branch). -/
inductive StatusField where
  | str (s : String)
  | enum (e : TodoItemStatus)
deriving DecidableEq, Repr

/-- The dictionary of attributes built by `_convert_todo_item`
(keys `title`, `status`, `due`, `notes`). -/
structure RemoteTaskFields where
  title : String
  status : StatusField
  due : Option String
  notes : Option String
deriving DecidableEq, Repr

/-- `_convert_todo_item` (todo.py lines 37-51).  `isoformat` is
`datetime.isoformat` (stdlib), a parameter of the embedding;
`localOff` is the local UTC offset used by `dt_util.start_of_local_day`. -/
def _convert_todo_item (localOff : Int) (isoformat : PyDateTime → String)
    (item : TodoItem) : RemoteTaskFields :=
  { title := item.summary
    status :=
      match item.status with
      | some s => .str (TODO_STATUS_MAP_INV s)
      | none => .enum .needs_action
    due := item.due.map (fun d => isoformat (start_of_local_day localOff d))
    notes := item.description }

/-- `_convert_api_item` (todo.py lines 54-68).  `fromiso` is
`datetime.fromisoformat` (stdlib), a parameter of the embedding; the code
takes `.date()` of the parsed datetime. -/
def _convert_api_item (fromiso : String → PyDateTime) (item : ApiItem) :
    TodoItem :=
  { summary := item.title
    uid := some item.id
    status := some ((TODO_STATUS_MAP (item.status.getD "")).getD .needs_action)
    due := item.due.map (fun s => (fromiso s).date)
    description := item.notes }

/-- `Lt` relation used by `parents.sort(key=lambda task: task["position"])`:
compare the `position` strings. -/
def positionLe (a b : ApiItem) : Prop :=
  a.position ≤ b.position

instance : DecidableRel positionLe := fun a b =>
  inferInstanceAs (Decidable (a.position ≤ b.position))

instance : IsTotal ApiItem positionLe :=
  ⟨fun a b => le_total a.position b.position⟩

instance : IsTrans ApiItem positionLe :=
  ⟨fun _ _ _ h h' => le_trans h h'⟩

/-- `_order_tasks` (todo.py lines 244-254): keep the records whose
`parent` is `None`, then sort them by `position` (Python's `list.sort` is
stable; a stable insertion sort by the same key is extensionally equal). -/
def _order_tasks (tasks : List ApiItem) : List ApiItem :=
  (tasks.filter (fun t => t.parent.isNone)).insertionSort positionLe

/-- `todo_items` property (todo.py lines 119-124), as a function of the
coordinator's cached snapshot (`None` before the first fetch). -/
def todo_items (fromiso : String → PyDateTime)
    (data : Option (List ApiItem)) : Option (List TodoItem) :=
  match data with
  | none => none
  | some tasks => some ((_order_tasks tasks).map (_convert_api_item fromiso))

/-- Python `date.weekday()` on an ordinal: Monday = 0
(ordinal 1 = 0001-01-01 is a Monday). -/
def pyWeekday (d : Int) : Int := (d - 1) % 7

/-- `week_start = current_date - timedelta(days=current_date.weekday())`
(todo.py line 220). -/
def week_start (current : Int) : Int := current - pyWeekday current

/-- `week_end = week_start + timedelta(days=6)` (todo.py line 221). -/
def week_end (current : Int) : Int := week_start current + 6

/-- The per-task due-date extraction of the `categorize_tasks` loop body
(todo.py lines 229-233): `due_str = task.get("due")`; `if due_str:` is
Python truthiness, false for both `None` and `""`; otherwise
`isoparse(due_str).date()` is taken, which may raise.  `isoparse` is a
parameter: the composite `fun s => isoparse(s).date()` of the dateutil
parser, returning `.error` where the library raises. -/
def getDueDate (isoparse : String → Except String Int) (t : ApiItem) :
    Except String (Option Int) :=
  match t.due with
  | some s => if s = "" then pure none else (isoparse s).map some
  | none => pure none

/-- The three bucket lists built by `categorize_tasks`. -/
structure Buckets where
  today : List ApiItem
  thisWeek : List ApiItem
  upcoming : List ApiItem
deriving DecidableEq, Repr

/-- The loop of `categorize_tasks` (todo.py lines 228-240), with the week
bounds precomputed: classify each task by its parsed due date through the
`if` / `elif` chain, appending to the buckets in input order; a parse
exception aborts the whole call. -/
def categorizeGo (isoparse : String → Except String Int)
    (current ws we : Int) : List ApiItem → Except String Buckets
  | [] => pure ⟨[], [], []⟩
  | t :: ts => do
      let dd ← getDueDate isoparse t
      let rest ← categorizeGo isoparse current ws we ts
      match dd with
      | none => pure rest
      | some d =>
        if d = current then
          pure { rest with today := t :: rest.today }
        else if ws ≤ d ∧ d ≤ we then
          pure { rest with thisWeek := t :: rest.thisWeek }
        else if we < d then
          pure { rest with upcoming := t :: rest.upcoming }
        else
          pure rest

/-- `categorize_tasks` (todo.py lines 214-241), with `date.today()`
passed as the `current` parameter. -/
def categorize_tasks (isoparse : String → Except String Int)
    (current : Int) (tasks : List ApiItem) : Except String Buckets :=
  categorizeGo isoparse current (week_start current) (week_end current) tasks

/-- Failure modes of the embedded `update` operation.  `MissingIdentifier`
is the failure the specification ascribes to an unset uid; `parseError`
is a date-parse exception escaping `categorize_tasks`. -/
inductive UpdateError where
  | MissingIdentifier
  | parseError (msg : String)
deriving DecidableEq, Repr

/-- An observable side effect of the entity operations: a remote `patch`
call, a coordinator refresh, or an `input_text.set_value` service call. -/
inductive Effect where
  | patch (taskListId : String) (uid : Option String) (task : RemoteTaskFields)
  | refresh
  | setInputText (entityId : String) (value : String)
deriving DecidableEq, Repr

/-- Shared body of the three `_store_*_for_email` helpers: the fixed
header line, then one `"- <title>"` line per task, newline-joined. -/
def bucketSummary (header : String) (tasks : List ApiItem) : String :=
  header ++ String.intercalate "\n" (tasks.map (fun t => "- " ++ t.title))

/-- `_store_tasks_for_email` (todo.py lines 160-175): categorize the
snapshot and publish the "Today" titles to
`input_text.stored_task_data`. -/
def _store_tasks_for_email (isoparse : String → Except String Int)
    (current : Int) (tasks : List ApiItem) : Except String Effect := do
  let bs ← categorize_tasks isoparse current tasks
  pure (.setInputText "input_text.stored_task_data"
    (bucketSummary "This is the list of tasks due today:\n" bs.today))

/-- `_store_weekly_tasks_for_email` (todo.py lines 178-193). -/
def _store_weekly_tasks_for_email (isoparse : String → Except String Int)
    (current : Int) (tasks : List ApiItem) : Except String Effect := do
  let bs ← categorize_tasks isoparse current tasks
  pure (.setInputText "input_text.stored_weekly_task_data"
    (bucketSummary "This is the list of tasks due this week:\n" bs.thisWeek))

/-- `_store_upcoming_tasks_for_email` (todo.py lines 196-211). -/
def _store_upcoming_tasks_for_email (isoparse : String → Except String Int)
    (current : Int) (tasks : List ApiItem) : Except String Effect := do
  let bs ← categorize_tasks isoparse current tasks
  pure (.setInputText "input_text.stored_upcoming_task_data"
    (bucketSummary "This is the list of upcoming tasks in future weeks:\n" bs.upcoming))

/-- `async_update_todo_item` (todo.py lines 134-145).  The body is
`uid = cast(str, item.uid)` — a runtime no-op — then `patch`, `refresh`
and the three store helpers over the refreshed snapshot `data`.  The
result is the list of effects performed, in order, paired with the error
that aborted the call, if any. -/
def async_update_todo_item (isoparse : String → Except String Int)
    (current localOff : Int) (isoformat : PyDateTime → String)
    (task_list_id : String) (item : TodoItem) (data : List ApiItem) :
    List Effect × Option UpdateError :=
  let pre : List Effect :=
    [.patch task_list_id item.uid (_convert_todo_item localOff isoformat item),
     .refresh]
  match _store_tasks_for_email isoparse current data with
  | .error e => (pre, some (.parseError e))
  | .ok e1 =>
    match _store_weekly_tasks_for_email isoparse current data with
    | .error e => (pre ++ [e1], some (.parseError e))
    | .ok e2 =>
      match _store_upcoming_tasks_for_email isoparse current data with
      | .error e => (pre ++ [e1, e2], some (.parseError e))
      | .ok e3 => (pre ++ [e1, e2, e3], none)

/-- Boolean form of the condition under which the loop appends a task to
the "Today" bucket: its due date extraction yields a date equal to
`current`. -/
def inTodayB (isoparse : String → Except String Int) (current : Int)
    (t : ApiItem) : Bool :=
  match getDueDate isoparse t with
  | .ok (some d) => decide (d = current)
  | _ => false

/-- Boolean form of the condition for the "This Week" bucket: a due date
`d` with `d ≠ current` and `ws ≤ d ≤ we` (the `elif` is only reached when
the "Today" test failed). -/
def inThisWeekB (isoparse : String → Except String Int)
    (current ws we : Int) (t : ApiItem) : Bool :=
  match getDueDate isoparse t with
  | .ok (some d) => !decide (d = current) && decide (ws ≤ d ∧ d ≤ we)
  | _ => false

/-- Boolean form of the condition for the "Upcoming" bucket: a due date
`d` failing the first two tests with `we < d`. -/
def inUpcomingB (isoparse : String → Except String Int)
    (current ws we : Int) (t : ApiItem) : Bool :=
  match getDueDate isoparse t with
  | .ok (some d) =>
      !decide (d = current) && !decide (ws ≤ d ∧ d ≤ we) && decide (we < d)
  | _ => false

/-- A minimal API record with the given title (also used as id) and due
string; no status, notes or parent, empty position. -/
def mkTask (title : String) (due : Option String) : ApiItem :=
  { id := title, title := title, status := none, due := due, notes := none,
    parent := none, position := "" }

/-- A parse function for the concrete dates of the spec's test vectors
(current date 2024-10-15, proleptic-Gregorian ordinal 739174, a Tuesday;
its week runs 739173 = 2024-10-14 Monday to 739179 = 2024-10-20 Sunday). -/
def sampleParse : String → Except String Int := fun s =>
  if s = "2024-10-15" then .ok 739174
  else if s = "2024-10-16" then .ok 739175
  else if s = "2024-10-20" then .ok 739179
  else if s = "2024-10-21" then .ok 739180
  else if s = "2024-10-13" then .ok 739172
  else .error "unparseable due string"

/-- Record A of the ordering test vector: no parent, position "2". -/
def recA : ApiItem :=
  { id := "A", title := "A", status := none, due := none, notes := none,
    parent := none, position := "2" }

/-- Record B of the ordering test vector: parent A (a sub-item). -/
def recB : ApiItem :=
  { id := "B", title := "B", status := none, due := none, notes := none,
    parent := some "A", position := "0" }

/-- Record C of the ordering test vector: no parent, position "1". -/
def recC : ApiItem :=
  { id := "C", title := "C", status := none, due := none, notes := none,
    parent := none, position := "1" }

/-- A local item whose uid is unset. -/
def itemNoUid : TodoItem :=
  { summary := "x", uid := none, status := none, due := none,
    description := none }

end GoogleTasks

namespace GoogleTasks

/-! ## Helper lemmas -/

theorem pyWeekday_nonneg (d : Int) : 0 ≤ pyWeekday d :=
  Int.emod_nonneg _ (by norm_num)

theorem pyWeekday_lt (d : Int) : pyWeekday d < 7 :=
  Int.emod_lt_of_pos _ (by norm_num)

theorem week_start_le (c : Int) : week_start c ≤ c := by
  have := pyWeekday_nonneg c
  simp only [week_start]
  omega

theorem le_week_end (c : Int) : c ≤ week_end c := by
  have := pyWeekday_lt c
  simp only [week_end, week_start]
  omega

theorem week_start_le_week_end (c : Int) : week_start c ≤ week_end c := by
  simp only [week_end]
  omega

theorem except_bind_ok {ε α β : Type} (a : α) (f : α → Except ε β) :
    (Except.ok a >>= f) = f a := rfl

theorem except_bind_error {ε α β : Type} (e : ε) (f : α → Except ε β) :
    ((Except.error e : Except ε α) >>= f) = Except.error e := rfl

theorem except_pure_eq {ε α : Type} (a : α) :
    (pure a : Except ε α) = Except.ok a := rfl

/-- If every task's due-date extraction succeeds, the categorization loop
returns the three filters of the input by the three bucket conditions. -/
theorem categorizeGo_eq_filter (p : String → Except String Int)
    (current ws we : Int) :
    ∀ tasks : List ApiItem, (∀ t ∈ tasks, (getDueDate p t).isOk) →
      categorizeGo p current ws we tasks =
        .ok ⟨tasks.filter (inTodayB p current),
             tasks.filter (inThisWeekB p current ws we),
             tasks.filter (inUpcomingB p current ws we)⟩
  | [], _ => rfl
  | t :: ts, h => by
      have ht : (getDueDate p t).isOk := h t (List.mem_cons_self _ _)
      have ih := categorizeGo_eq_filter p current ws we ts
        (fun x hx => h x (List.mem_cons_of_mem _ hx))
      obtain ⟨r, hr⟩ : ∃ r, getDueDate p t = .ok r := by
        cases hgd : getDueDate p t with
        | ok r => exact ⟨r, rfl⟩
        | error e => rw [hgd] at ht; simp [Except.isOk, Except.toBool] at ht
      simp only [categorizeGo, hr, ih, except_bind_ok, except_pure_eq]
      cases r with
      | none =>
        simp [List.filter_cons, inTodayB, inThisWeekB, inUpcomingB, hr]
      | some d =>
        by_cases h1 : d = current
        · simp [List.filter_cons, inTodayB, inThisWeekB, inUpcomingB, hr, h1]
        · by_cases h2 : ws ≤ d ∧ d ≤ we
          · simp [List.filter_cons, inTodayB, inThisWeekB, inUpcomingB, hr,
              h1, h2]
          · by_cases h3 : we < d
            · simp [List.filter_cons, inTodayB, inThisWeekB, inUpcomingB, hr,
                h1, h2, h3]
            · simp [List.filter_cons, inTodayB, inThisWeekB, inUpcomingB, hr,
                h1, h2, h3]

/-- If the categorization loop returns buckets, every task's due-date
extraction succeeded. -/
theorem categorizeGo_ok_all (p : String → Except String Int)
    (current ws we : Int) :
    ∀ tasks : List ApiItem, ∀ bs,
      categorizeGo p current ws we tasks = .ok bs →
      ∀ t ∈ tasks, (getDueDate p t).isOk
  | [], _, _, t, ht => absurd ht (List.not_mem_nil t)
  | x :: ts, bs, h, t, ht => by
      cases hgd : getDueDate p x with
      | error e =>
        rw [categorizeGo, hgd, except_bind_error] at h
        exact absurd h (by simp)
      | ok r =>
        rcases List.mem_cons.mp ht with rfl | hmem
        · simp [Except.isOk, Except.toBool, hgd]
        · cases hrest : categorizeGo p current ws we ts with
          | error e =>
            rw [categorizeGo, hgd, except_bind_ok, hrest,
              except_bind_error] at h
            exact absurd h (by simp)
          | ok rest =>
            exact categorizeGo_ok_all p current ws we ts rest hrest t hmem

/-- `categorize_tasks` under total parsing, as filters of the input. -/
theorem categorize_tasks_eq_filter (p : String → Except String Int)
    (current : Int) (tasks : List ApiItem)
    (h : ∀ t ∈ tasks, (getDueDate p t).isOk) :
    categorize_tasks p current tasks =
      .ok ⟨tasks.filter (inTodayB p current),
           tasks.filter (inThisWeekB p current (week_start current) (week_end current)),
           tasks.filter (inUpcomingB p current (week_start current) (week_end current))⟩ :=
  categorizeGo_eq_filter p current _ _ tasks h

theorem inTodayB_not_inThisWeekB (p : String → Except String Int)
    (c ws we : Int) (t : ApiItem) (h : inTodayB p c t = true) :
    inThisWeekB p c ws we t = false := by
  unfold inTodayB at h
  unfold inThisWeekB
  cases hgd : getDueDate p t with
  | error e => rfl
  | ok r =>
    cases r with
    | none => rfl
    | some d => rw [hgd] at h; simp_all

theorem inTodayB_not_inUpcomingB (p : String → Except String Int)
    (c ws we : Int) (t : ApiItem) (h : inTodayB p c t = true) :
    inUpcomingB p c ws we t = false := by
  unfold inTodayB at h
  unfold inUpcomingB
  cases hgd : getDueDate p t with
  | error e => rfl
  | ok r =>
    cases r with
    | none => rfl
    | some d => rw [hgd] at h; simp_all

theorem inThisWeekB_not_inUpcomingB (p : String → Except String Int)
    (c ws we : Int) (t : ApiItem) (h : inThisWeekB p c ws we t = true) :
    inUpcomingB p c ws we t = false := by
  unfold inThisWeekB at h
  unfold inUpcomingB
  cases hgd : getDueDate p t with
  | error e => rfl
  | ok r =>
    cases r with
    | none => rfl
    | some d => rw [hgd] at h; simp_all

/-! ## Claim theorems -/

/-- C2: for every task record with a parseable due date `d` and current
date `today`, with `weekStart = today` minus its Monday-based weekday
index and `weekEnd = weekStart + 6`, `categorize_tasks` places the record
in exactly the bucket given by: `d = today` yields "Today";
`weekStart ≤ d ≤ weekEnd` with `d ≠ today` yields "This Week";
`d > weekEnd` yields "Upcoming"; and every record whose due field is
null/absent appears in none of the three buckets. -/
theorem C2_categorize_bucket_assignment (p : String → Except String Int)
    (current : Int) (tasks : List ApiItem)
    (hall : ∀ t ∈ tasks, (getDueDate p t).isOk) :
    ∃ bs, categorize_tasks p current tasks = .ok bs ∧
      (∀ t ∈ tasks, ∀ d : Int, getDueDate p t = .ok (some d) →
        ((t ∈ bs.today ↔ d = current) ∧
         (t ∈ bs.thisWeek ↔
           (week_start current ≤ d ∧ d ≤ week_end current ∧ d ≠ current)) ∧
         (t ∈ bs.upcoming ↔ week_end current < d))) ∧
      (∀ t ∈ tasks, t.due = none →
        t ∉ bs.today ∧ t ∉ bs.thisWeek ∧ t ∉ bs.upcoming) := by
  refine ⟨_, categorize_tasks_eq_filter p current tasks hall, ?_, ?_⟩
  · intro t htm d hd
    refine ⟨?_, ?_, ?_⟩
    · simp [List.mem_filter, htm, inTodayB, hd]
    · simp only [List.mem_filter, htm, true_and, inThisWeekB, hd]
      simp only [Bool.and_eq_true, Bool.not_eq_true', decide_eq_false_iff_not,
        decide_eq_true_eq]
      tauto
    · simp only [List.mem_filter, htm, true_and, inUpcomingB, hd]
      simp only [Bool.and_eq_true, Bool.not_eq_true', decide_eq_false_iff_not,
        decide_eq_true_eq]
      have h1 := le_week_end current
      have h2 := week_start_le current
      omega
  · intro t htm hdue
    have hgd : getDueDate p t = .ok none := by
      simp [getDueDate, hdue, except_pure_eq]
    refine ⟨?_, ?_, ?_⟩ <;> simp [List.mem_filter, inTodayB, inThisWeekB,
      inUpcomingB, hgd]

/-- Witness for C2 at the spec's test vector: current date 2024-10-15
(ordinal 739174), tasks due 2024-10-15, 2024-10-21 and one with no due. -/
theorem C2_categorize_bucket_assignment_witness :
    (∀ t ∈ [mkTask "t1" (some "2024-10-15"), mkTask "t2" (some "2024-10-21"),
        mkTask "t3" none], (getDueDate sampleParse t).isOk) ∧
    (∃ bs, categorize_tasks sampleParse 739174
        [mkTask "t1" (some "2024-10-15"), mkTask "t2" (some "2024-10-21"),
         mkTask "t3" none] = .ok bs ∧
      (∀ t ∈ [mkTask "t1" (some "2024-10-15"), mkTask "t2" (some "2024-10-21"),
          mkTask "t3" none], ∀ d : Int,
          getDueDate sampleParse t = .ok (some d) →
        ((t ∈ bs.today ↔ d = 739174) ∧
         (t ∈ bs.thisWeek ↔
           (week_start 739174 ≤ d ∧ d ≤ week_end 739174 ∧ d ≠ 739174)) ∧
         (t ∈ bs.upcoming ↔ week_end 739174 < d))) ∧
      (∀ t ∈ [mkTask "t1" (some "2024-10-15"), mkTask "t2" (some "2024-10-21"),
          mkTask "t3" none], t.due = none →
        t ∉ bs.today ∧ t ∉ bs.thisWeek ∧ t ∉ bs.upcoming)) :=
  ⟨by decide, C2_categorize_bucket_assignment sampleParse 739174 _ (by decide)⟩

/-- C3: every task record whose parseable due date `d` is strictly before
the week start and not equal to today is placed in none of the three
buckets by `categorize_tasks`: it is silently dropped. -/
theorem C3_past_due_silently_dropped (p : String → Except String Int)
    (current : Int) (tasks : List ApiItem) (bs : Buckets)
    (h : categorize_tasks p current tasks = .ok bs)
    (t : ApiItem) (_htm : t ∈ tasks) (d : Int)
    (hd : getDueDate p t = .ok (some d))
    (hpast : d < week_start current) (hne : d ≠ current) :
    t ∉ bs.today ∧ t ∉ bs.thisWeek ∧ t ∉ bs.upcoming := by
  have hall := categorizeGo_ok_all p current _ _ tasks bs h
  rw [categorize_tasks_eq_filter p current tasks hall] at h
  obtain rfl := (Except.ok.inj h).symm
  have h1 := week_start_le_week_end current
  refine ⟨?_, ?_, ?_⟩ <;>
    simp [List.mem_filter, inTodayB, inThisWeekB, inUpcomingB, hd] <;>
    omega

/-- Witness for C3: a task due 2024-10-13 (before the week start
2024-10-14) is in none of the buckets for current date 2024-10-15. -/
theorem C3_past_due_silently_dropped_witness :
    categorize_tasks sampleParse 739174 [mkTask "t" (some "2024-10-13")] =
        .ok ⟨[], [], []⟩ ∧
    (mkTask "t" (some "2024-10-13") ∉ (Buckets.mk [] [] []).today ∧
     mkTask "t" (some "2024-10-13") ∉ (Buckets.mk [] [] []).thisWeek ∧
     mkTask "t" (some "2024-10-13") ∉ (Buckets.mk [] [] []).upcoming) :=
  ⟨by decide,
   C3_past_due_silently_dropped sampleParse 739174
     [mkTask "t" (some "2024-10-13")] ⟨[], [], []⟩ (by decide)
     (mkTask "t" (some "2024-10-13")) (by decide) 739172 (by decide)
     (by decide) (by decide)⟩

/-- C9: a task record whose due field is the empty string is treated
exactly like one with an absent due date: replacing the one by the other
leaves the result of `categorize_tasks` unchanged for every parse
function (so the record is excluded from all buckets and the parser is
never consulted for it), and whenever the call succeeds the record is in
none of the three buckets. -/
theorem C9_empty_due_like_absent (p : String → Except String Int)
    (current : Int) (pre post : List ApiItem) (t : ApiItem)
    (hdue : t.due = some "") :
    categorize_tasks p current (pre ++ t :: post) =
      categorize_tasks p current (pre ++ { t with due := none } :: post) ∧
    (∀ bs, categorize_tasks p current (pre ++ t :: post) = .ok bs →
      t ∉ bs.today ∧ t ∉ bs.thisWeek ∧ t ∉ bs.upcoming) := by
  have hgd : getDueDate p t = .ok none := by
    simp [getDueDate, hdue, except_pure_eq]
  constructor
  · simp only [categorize_tasks]
    induction pre with
    | nil =>
      simp only [List.nil_append, categorizeGo]
      have hgd2 : getDueDate p { t with due := none } = .ok none := rfl
      rw [hgd, hgd2]
      rfl
    | cons x xs ih =>
      simp only [List.cons_append, categorizeGo, List.append_eq]
      simp only [ih]
  · intro bs h
    have hall := categorizeGo_ok_all p current _ _ _ bs h
    rw [categorize_tasks_eq_filter p current _ hall] at h
    obtain rfl := (Except.ok.inj h).symm
    refine ⟨?_, ?_, ?_⟩ <;>
      simp [List.mem_filter, inTodayB, inThisWeekB, inUpcomingB, hgd]

/-- Witness for C9: a task with due `""` in the middle of a list. -/
theorem C9_empty_due_like_absent_witness :
    categorize_tasks sampleParse 739174
        ([mkTask "a" (some "2024-10-15")] ++ mkTask "e" (some "") ::
          [mkTask "b" (some "2024-10-21")]) =
      categorize_tasks sampleParse 739174
        ([mkTask "a" (some "2024-10-15")] ++
          { mkTask "e" (some "") with due := none } ::
          [mkTask "b" (some "2024-10-21")]) ∧
    (∀ bs, categorize_tasks sampleParse 739174
        ([mkTask "a" (some "2024-10-15")] ++ mkTask "e" (some "") ::
          [mkTask "b" (some "2024-10-21")]) = .ok bs →
      mkTask "e" (some "") ∉ bs.today ∧
      mkTask "e" (some "") ∉ bs.thisWeek ∧
      mkTask "e" (some "") ∉ bs.upcoming) :=
  C9_empty_due_like_absent sampleParse 739174 _ _ _ (by decide)

/-- C10: whenever `categorize_tasks` returns buckets, each bucket is a
sublist of the input (so every bucketed task is drawn from the input with
its relative input order preserved), and the three buckets are pairwise
disjoint: each input task appears in at most one of them. -/
theorem C10_buckets_disjoint_sublists (p : String → Except String Int)
    (current : Int) (tasks : List ApiItem) (bs : Buckets)
    (h : categorize_tasks p current tasks = .ok bs) :
    (bs.today.Sublist tasks ∧ bs.thisWeek.Sublist tasks ∧
      bs.upcoming.Sublist tasks) ∧
    (∀ t : ApiItem,
      (t ∈ bs.today → t ∉ bs.thisWeek ∧ t ∉ bs.upcoming) ∧
      (t ∈ bs.thisWeek → t ∉ bs.upcoming)) := by
  have hall := categorizeGo_ok_all p current _ _ tasks bs h
  rw [categorize_tasks_eq_filter p current tasks hall] at h
  obtain rfl := (Except.ok.inj h).symm
  refine ⟨⟨List.filter_sublist _, List.filter_sublist _, List.filter_sublist _⟩, ?_⟩
  intro t
  constructor
  · intro ht
    have h1 : inTodayB p current t = true := (List.mem_filter.mp ht).2
    constructor
    · intro hw
      have h2 : inThisWeekB p current (week_start current) (week_end current) t
          = true := (List.mem_filter.mp hw).2
      rw [inTodayB_not_inThisWeekB p current (week_start current)
        (week_end current) t h1] at h2
      exact Bool.false_ne_true h2
    · intro hu
      have h2 : inUpcomingB p current (week_start current) (week_end current) t
          = true := (List.mem_filter.mp hu).2
      rw [inTodayB_not_inUpcomingB p current (week_start current)
        (week_end current) t h1] at h2
      exact Bool.false_ne_true h2
  · intro hw hu
    have h1 : inThisWeekB p current (week_start current) (week_end current) t
        = true := (List.mem_filter.mp hw).2
    have h2 : inUpcomingB p current (week_start current) (week_end current) t
        = true := (List.mem_filter.mp hu).2
    rw [inThisWeekB_not_inUpcomingB p current (week_start current)
      (week_end current) t h1] at h2
    exact Bool.false_ne_true h2

/-- Witness for C10 at a mixed concrete input. -/
theorem C10_buckets_disjoint_sublists_witness :
    ∃ bs, categorize_tasks sampleParse 739174
        [mkTask "t1" (some "2024-10-15"), mkTask "t2" (some "2024-10-16"),
         mkTask "t3" (some "2024-10-21")] = .ok bs ∧
      ((bs.today.Sublist
          [mkTask "t1" (some "2024-10-15"), mkTask "t2" (some "2024-10-16"),
           mkTask "t3" (some "2024-10-21")] ∧
        bs.thisWeek.Sublist
          [mkTask "t1" (some "2024-10-15"), mkTask "t2" (some "2024-10-16"),
           mkTask "t3" (some "2024-10-21")] ∧
        bs.upcoming.Sublist
          [mkTask "t1" (some "2024-10-15"), mkTask "t2" (some "2024-10-16"),
           mkTask "t3" (some "2024-10-21")]) ∧
       (∀ t : ApiItem,
         (t ∈ bs.today → t ∉ bs.thisWeek ∧ t ∉ bs.upcoming) ∧
         (t ∈ bs.thisWeek → t ∉ bs.upcoming))) :=
  ⟨⟨[mkTask "t1" (some "2024-10-15")], [mkTask "t2" (some "2024-10-16")],
    [mkTask "t3" (some "2024-10-21")]⟩, by decide,
   C10_buckets_disjoint_sublists sampleParse 739174 _ _ (by decide)⟩

/-- C7: `_order_tasks` returns exactly the records whose parent field is
absent, sorted by the position string ascending; in particular for records
with parents {A: null, B: A, C: null} and positions {A: "2", C: "1"} it
returns [C, A] with B excluded. -/
theorem C7_order_tasks_filter_sort :
    (∀ tasks : List ApiItem,
      (_order_tasks tasks).Perm (tasks.filter (fun t => t.parent.isNone)) ∧
      List.Sorted positionLe (_order_tasks tasks) ∧
      (∀ t : ApiItem, t ∈ _order_tasks tasks ↔ t ∈ tasks ∧ t.parent = none)) ∧
    _order_tasks [recA, recB, recC] = [recC, recA] := by
  refine ⟨fun tasks => ⟨?_, ?_, fun t => ?_⟩, ?_⟩
  · exact List.perm_insertionSort positionLe _
  · exact List.sorted_insertionSort positionLe _
  · rw [_order_tasks, List.mem_insertionSort, List.mem_filter,
      Option.isNone_iff_eq_none]
  · have hAC : ¬ positionLe recA recC := by
      simp only [positionLe, recA, recC]
      rw [String.le_iff_toList_le]
      decide
    simp only [recA, recC] at hAC
    simp [_order_tasks, recA, recB, recC, List.insertionSort,
      List.orderedInsert, hAC]

/-- C8: the `todo_items` view returns the absent value (not an empty
list) when no snapshot has ever been fetched, and otherwise the cached
snapshot with `_order_tasks` applied first and `_convert_api_item`
applied to each resulting record, in that order. -/
theorem C8_todo_items_view (fromiso : String → PyDateTime) :
    todo_items fromiso none = none ∧
    todo_items fromiso none ≠ some [] ∧
    (∀ tasks : List ApiItem, todo_items fromiso (some tasks) =
      some ((_order_tasks tasks).map (_convert_api_item fromiso))) :=
  ⟨rfl, by simp [todo_items], fun _ => rfl⟩

/-- C5: for every remote record whose status is "needsAction" or
"completed", the round trip `_convert_todo_item ∘ _convert_api_item`
reproduces the status string exactly, and the status mapping is a
bijection between the two strings and the two enum values
(`TODO_STATUS_MAP_INV` is a two-sided inverse of `TODO_STATUS_MAP` on
them). -/
theorem C5_status_round_trip (fromiso : String → PyDateTime)
    (localOff : Int) (isoformat : PyDateTime → String) (r : ApiItem)
    (s : String) (hs : r.status = some s)
    (hdef : s = "needsAction" ∨ s = "completed") :
    (_convert_todo_item localOff isoformat (_convert_api_item fromiso r)).status
        = .str s ∧
    (∀ v : TodoItemStatus, TODO_STATUS_MAP (TODO_STATUS_MAP_INV v) = some v) ∧
    (TODO_STATUS_MAP s).map TODO_STATUS_MAP_INV = some s := by
  refine ⟨?_, ?_, ?_⟩
  · rcases hdef with rfl | rfl <;>
      simp [_convert_todo_item, _convert_api_item, hs, TODO_STATUS_MAP,
        TODO_STATUS_MAP_INV]
  · intro v; cases v <;> rfl
  · rcases hdef with rfl | rfl <;> rfl

/-- Witness for C5 at a record with status "completed". -/
theorem C5_status_round_trip_witness :
    (_convert_todo_item 0 (fun _ => "")
        (_convert_api_item (fun _ => ⟨0, 0, 0⟩)
          { id := "r", title := "r", status := some "completed", due := none,
            notes := none, parent := none, position := "" })).status
        = .str "completed" ∧
    (∀ v : TodoItemStatus, TODO_STATUS_MAP (TODO_STATUS_MAP_INV v) = some v) ∧
    (TODO_STATUS_MAP "completed").map TODO_STATUS_MAP_INV = some "completed" :=
  C5_status_round_trip (fun _ => ⟨0, 0, 0⟩) 0 (fun _ => "")
    { id := "r", title := "r", status := some "completed", due := none,
      notes := none, parent := none, position := "" }
    "completed" rfl (Or.inr rfl)

/-- C6: for every local item with due date `D`, `_convert_todo_item`
produces a remote due string equal to the ISO timestamp of local midnight
(start of the local day) of `D`, and `_convert_api_item` applied to a
record carrying that due string yields the calendar date `D` again
(assuming the datetime library parses back what it formatted). -/
theorem C6_due_round_trip (localOff : Int) (isoformat : PyDateTime → String)
    (fromiso : String → PyDateTime) (item : TodoItem) (D : Int)
    (hdue : item.due = some D)
    (hround : fromiso (isoformat (start_of_local_day localOff D)) =
      start_of_local_day localOff D)
    (r : ApiItem)
    (hr : r.due = (_convert_todo_item localOff isoformat item).due) :
    (_convert_todo_item localOff isoformat item).due =
      some (isoformat (start_of_local_day localOff D)) ∧
    (_convert_api_item fromiso r).due = some D := by
  have h1 : (_convert_todo_item localOff isoformat item).due =
      some (isoformat (start_of_local_day localOff D)) := by
    simp [_convert_todo_item, hdue]
  refine ⟨h1, ?_⟩
  rw [h1] at hr
  have h2 : (_convert_api_item fromiso r).due =
      some ((fromiso (isoformat (start_of_local_day localOff D))).date) := by
    simp [_convert_api_item, hr]
  rw [h2, hround]
  rfl

/-- Witness for C6: date ordinal 5, a formatter producing "m" and a
parser mapping it back to midnight of that day. -/
theorem C6_due_round_trip_witness :
    (_convert_todo_item 0 (fun _ => "m")
        { summary := "s", uid := none, status := none, due := some 5,
          description := none }).due = some "m" ∧
    (_convert_api_item (fun _ => ⟨5, 0, 0⟩) (mkTask "r" (some "m"))).due =
      some 5 :=
  C6_due_round_trip 0 (fun _ => "m") (fun _ => ⟨5, 0, 0⟩)
    { summary := "s", uid := none, status := none, due := some 5,
      description := none }
    5 rfl rfl (mkTask "r" (some "m")) rfl

/-- C4: the claim says an unset status translates to the string
"needsAction"; the code's `else` branch instead stores the raw
`TodoItemStatus.NEEDS_ACTION` enum member, not the reverse-mapped API
string — evaluation at an item with unset status. -/
theorem C4_unset_status_stores_enum_member :
    (_convert_todo_item 0 (fun _ => "") itemNoUid).status =
        .enum .needs_action ∧
    StatusField.enum .needs_action ≠ .str "needsAction" :=
  ⟨rfl, by decide⟩

/-- C1 counterexample: for a concrete item whose uid is unset, the update
operation does not fail with `MissingIdentifier` — it performs the remote
patch call (with the unset uid) followed by the refresh and the three
sink publishes. -/
theorem C1_counterexample_update_without_uid :
    itemNoUid.uid = none ∧
    (async_update_todo_item (fun _ => Except.error "e") 0 0 (fun _ => "")
        "L" itemNoUid []).snd ≠ some UpdateError.MissingIdentifier ∧
    Effect.patch "L" none (_convert_todo_item 0 (fun _ => "") itemNoUid) ∈
      (async_update_todo_item (fun _ => Except.error "e") 0 0 (fun _ => "")
        "L" itemNoUid []).fst := by
  decide

/-- C1 amended: the update operation never checks the uid; for every item
whose uid is unset (and whenever categorization of the refreshed snapshot
succeeds) it performs the remote patch call with the unset uid, then the
refresh and the three sink publishes, and does not fail with
`MissingIdentifier`. -/
theorem C1_amended_update_patches_unset_uid
    (p : String → Except String Int) (current localOff : Int)
    (isoformat : PyDateTime → String) (tlid : String) (item : TodoItem)
    (data : List ApiItem) (bs : Buckets) (huid : item.uid = none)
    (hcat : categorize_tasks p current data = .ok bs) :
    async_update_todo_item p current localOff isoformat tlid item data =
      ([.patch tlid none (_convert_todo_item localOff isoformat item),
        .refresh,
        .setInputText "input_text.stored_task_data"
          (bucketSummary "This is the list of tasks due today:\n" bs.today),
        .setInputText "input_text.stored_weekly_task_data"
          (bucketSummary "This is the list of tasks due this week:\n"
            bs.thisWeek),
        .setInputText "input_text.stored_upcoming_task_data"
          (bucketSummary "This is the list of upcoming tasks in future weeks:\n"
            bs.upcoming)], none) := by
  have h1 : _store_tasks_for_email p current data =
      .ok (.setInputText "input_text.stored_task_data"
        (bucketSummary "This is the list of tasks due today:\n" bs.today)) := by
    rw [_store_tasks_for_email, hcat]; rfl
  have h2 : _store_weekly_tasks_for_email p current data =
      .ok (.setInputText "input_text.stored_weekly_task_data"
        (bucketSummary "This is the list of tasks due this week:\n"
          bs.thisWeek)) := by
    rw [_store_weekly_tasks_for_email, hcat]; rfl
  have h3 : _store_upcoming_tasks_for_email p current data =
      .ok (.setInputText "input_text.stored_upcoming_task_data"
        (bucketSummary "This is the list of upcoming tasks in future weeks:\n"
          bs.upcoming)) := by
    rw [_store_upcoming_tasks_for_email, hcat]; rfl
  rw [async_update_todo_item, h1, h2, h3, huid]
  rfl

/-- Witness for C1's amended claim at a concrete item and empty
snapshot. -/
theorem C1_amended_update_patches_unset_uid_witness :
    async_update_todo_item sampleParse 739174 0 (fun _ => "") "L" itemNoUid []
      =
      ([.patch "L" none (_convert_todo_item 0 (fun _ => "") itemNoUid),
        .refresh,
        .setInputText "input_text.stored_task_data"
          (bucketSummary "This is the list of tasks due today:\n" []),
        .setInputText "input_text.stored_weekly_task_data"
          (bucketSummary "This is the list of tasks due this week:\n" []),
        .setInputText "input_text.stored_upcoming_task_data"
          (bucketSummary "This is the list of upcoming tasks in future weeks:\n"
            [])], none) :=
  C1_amended_update_patches_unset_uid sampleParse 739174 0 (fun _ => "")
    "L" itemNoUid [] ⟨[], [], []⟩ rfl (by decide)

end GoogleTasks
